import Mathlib

/-!
Shallow embedding of the ai-job task-dispatching service.

Sources embedded:
* `internal/models` (`task.go`): `Task`, `Worker`, status and priority constants.
* The SQL repositories (`TaskRepository`, `WorkerRepository`): point lookups,
  whole-record updates (writing exactly the columns of the SQL `UPDATE`),
  `GetPendingTasks` (`ORDER BY priority DESC, created_at ASC LIMIT n`),
  `List` with a status filter, `ListAvailable`
  (`status = available AND current_task_id IS NULL AND last_heartbeat > now - 1 minute`,
  `ORDER BY available_gpu DESC, available_memory DESC`), `UpdateHeartbeat`.
* The resource-aware scheduler (`internal/models/mcp_task.go`, second variant):
  `processPendingTasks`, `canWorkerHandleTask`, `updateWorkerResources`,
  `checkTaskTimeouts`, `handleFailedWorkers`.
* The REST handlers (`api` package): `createTask`, `cancelTask`, `registerWorker`,
  `workerHeartbeat`, `updateWorkerStatus` / `updateTaskStatus`.

Modelling conventions: timestamps and durations are integers (seconds);
Go `float64` resource quantities are rationals (all constants involved are
exact decimal fractions); `[]byte` payloads are strings; the database is a
pair of lists of records, each SQL `UPDATE ... WHERE id = :id` is a map that
rewrites exactly the columns listed in the query; `ORDER BY` is a stable
sort (`List.insertionSort`), ties keeping the table's row order.
-/

namespace AIJob

/-- Go `TaskStatus` is a string type; we keep it a string. -/
abbrev TaskStatus := String

/-- Embedding of `models.Task` (internal/models/task.go). -/
structure Task where
  id : String
  name : String := ""
  description : String := ""
  modelName : String := ""
  status : TaskStatus := "pending"
  priority : Int := 2
  input : String := ""
  output : String := ""
  error : String := ""
  createdAt : Int := 0
  updatedAt : Int := 0
  startedAt : Option Int := none
  completedAt : Option Int := none
  workerId : Option String := none
  userId : String := ""
  timeout : Int := 1800
  retryCount : Int := 0
  maxRetries : Int := 3
deriving DecidableEq

/-- Embedding of `models.Worker` (internal/models/task.go). -/
structure Worker where
  id : String
  name : String := ""
  status : String := "available"
  capabilities : List String := []
  currentTaskId : Option String := none
  lastHeartbeat : Int := 0
  registeredAt : Int := 0
  availableMemory : Int := 0
  availableCPU : Rat := 0
  availableGPU : Rat := 0
  totalTasksHandled : Int := 0
deriving DecidableEq

/-- The persistent store: the `tasks` and `workers` tables, rows in
physical (insertion) order. -/
structure Store where
  tasks : List Task := []
  workers : List Worker := []
deriving DecidableEq

/-- `TaskRepository.GetByID`: `SELECT * FROM tasks WHERE id = $1`. -/
def getTaskById (st : Store) (i : String) : Option Task :=
  st.tasks.find? (fun t => t.id = i)

/-- `WorkerRepository.GetByID`. -/
def getWorkerById (st : Store) (i : String) : Option Worker :=
  st.workers.find? (fun w => w.id = i)

/-- The column list of `TaskRepository.Update`: it writes name, description,
model_name, status, priority, input, output, error, updated_at, started_at,
completed_at, worker_id and retry_count (stamping `updated_at = now`), and
leaves created_at, user_id, timeout and max_retries as stored. -/
def mergeTaskRecord (x t : Task) (now : Int) : Task :=
  { x with
    name := t.name, description := t.description, modelName := t.modelName,
    status := t.status, priority := t.priority, input := t.input,
    output := t.output, error := t.error, updatedAt := now,
    startedAt := t.startedAt, completedAt := t.completedAt,
    workerId := t.workerId, retryCount := t.retryCount }

/-- `TaskRepository.Update` (`UPDATE tasks SET ... WHERE id = :id`). -/
def updateTask (st : Store) (t : Task) (now : Int) : Store :=
  { st with tasks := st.tasks.map (fun x => if x.id = t.id then mergeTaskRecord x t now else x) }

/-- The column list of `WorkerRepository.Update`: name, status, capabilities,
current_task_id, last_heartbeat, available_memory, available_cpu,
available_gpu, total_tasks_handled (registered_at is not written). -/
def mergeWorkerRecord (x w : Worker) : Worker :=
  { x with
    name := w.name, status := w.status, capabilities := w.capabilities,
    currentTaskId := w.currentTaskId, lastHeartbeat := w.lastHeartbeat,
    availableMemory := w.availableMemory, availableCPU := w.availableCPU,
    availableGPU := w.availableGPU, totalTasksHandled := w.totalTasksHandled }

/-- `WorkerRepository.Update`. -/
def updateWorker (st : Store) (w : Worker) : Store :=
  { st with workers := st.workers.map (fun x => if x.id = w.id then mergeWorkerRecord x w else x) }

/-- `WorkerRepository.UpdateHeartbeat`: stamps `last_heartbeat = now` only. -/
def updateHeartbeat (st : Store) (i : String) (now : Int) : Store :=
  { st with workers := st.workers.map (fun w => if w.id = i then { w with lastHeartbeat := now } else w) }

/-- The `ORDER BY priority DESC, created_at ASC` key used by
`GetPendingTasks` and `TaskRepository.List`. -/
def pendingOrder (a b : Task) : Prop :=
  b.priority < a.priority ∨ (a.priority = b.priority ∧ a.createdAt ≤ b.createdAt)

instance : DecidableRel pendingOrder := fun a b =>
  inferInstanceAs (Decidable (b.priority < a.priority ∨ (a.priority = b.priority ∧ a.createdAt ≤ b.createdAt)))

instance : IsTotal Task pendingOrder := by
  constructor
  intro a b
  unfold pendingOrder
  rcases lt_trichotomy a.priority b.priority with h | h | h
  · exact Or.inr (Or.inl h)
  · rcases le_total a.createdAt b.createdAt with h2 | h2
    · exact Or.inl (Or.inr ⟨h, h2⟩)
    · exact Or.inr (Or.inr ⟨h.symm, h2⟩)
  · exact Or.inl (Or.inl h)

instance : IsTrans Task pendingOrder := by
  constructor
  intro a b c hab hbc
  unfold pendingOrder at *
  rcases hab with h1 | ⟨h1, h1c⟩
  · rcases hbc with h2 | ⟨h2, _⟩
    · exact Or.inl (h2.trans h1)
    · exact Or.inl (h2 ▸ h1)
  · rcases hbc with h2 | ⟨h2, h2c⟩
    · exact Or.inl (h1 ▸ h2)
    · exact Or.inr ⟨h1.trans h2, h1c.trans h2c⟩

/-- `TaskRepository.GetPendingTasks`:
`SELECT * FROM tasks WHERE status = pending ORDER BY priority DESC, created_at ASC LIMIT n`. -/
def getPendingTasks (st : Store) (limit : Nat) : List Task :=
  (List.insertionSort pendingOrder (st.tasks.filter (fun t => t.status = "pending"))).take limit

/-- `TaskRepository.List` with a status filter:
`SELECT * FROM tasks WHERE status = $1 ORDER BY priority DESC, created_at ASC LIMIT $2 OFFSET $3`. -/
def listTasksByStatus (st : Store) (status : TaskStatus) (limit offset : Nat) : List Task :=
  ((List.insertionSort pendingOrder (st.tasks.filter (fun t => t.status = status))).drop offset).take limit

/-- The `ORDER BY available_gpu DESC, available_memory DESC` key of `ListAvailable`. -/
def availOrder (a b : Worker) : Prop :=
  b.availableGPU < a.availableGPU ∨ (a.availableGPU = b.availableGPU ∧ b.availableMemory ≤ a.availableMemory)

instance : DecidableRel availOrder := fun a b =>
  inferInstanceAs (Decidable (b.availableGPU < a.availableGPU ∨ (a.availableGPU = b.availableGPU ∧ b.availableMemory ≤ a.availableMemory)))

/-- `WorkerRepository.ListAvailable`: workers with `status = available`,
`current_task_id IS NULL` and `last_heartbeat > now - 1 minute`
(the one-minute window is hard-coded in the query), ordered by
available_gpu DESC then available_memory DESC. -/
def listAvailable (st : Store) (now : Int) : List Worker :=
  List.insertionSort availOrder
    (st.workers.filter (fun w =>
      decide (w.status = "available" ∧ w.currentTaskId = none ∧ now - 60 < w.lastHeartbeat)))

/-! ### Scheduler (resource-aware variant of `internal/models/mcp_task.go`) -/

/-- `scheduler.Config` (PollInterval is not needed by the per-pass functions). -/
structure Config where
  pollInterval : Int := 1
  maxTasks : Nat := 10
  heartbeatInterval : Int := 30
  taskTimeout : Int := 1800

/-- The scheduler's process-global `WorkerResources` triple
(CPU cores, memory in GB, GPU fraction); zero-initialised in `New`. -/
structure Resources where
  cpu : Rat := 0
  memory : Rat := 0
  gpu : Rat := 0
deriving DecidableEq

/-- Scheduler-visible state: the store plus the in-memory resource triple. -/
structure SchedState where
  store : Store
  resources : Resources := {}
deriving DecidableEq

/-- The per-task requirement table of `canWorkerHandleTask` /
`updateWorkerResources`: (0.5 cores, 1.0 GB, 0.3 GPU) for an empty
model name, (1.0, 2.0, 0.7) otherwise. -/
def taskRequirement (t : Task) : Resources :=
  if t.modelName = "" then { cpu := 1/2, memory := 1, gpu := 3/10 }
  else { cpu := 1, memory := 2, gpu := 7/10 }

/-- `float64(worker.AvailableMemory) / 1024 / 1024 / 1024` in the fit check. -/
def memGB (w : Worker) : Rat := (w.availableMemory : Rat) / 1073741824

/-- `Scheduler.canWorkerHandleTask`: worker available and taskless, model
capability honoured (empty model name matches), and the global resource
triple plus the requirement within the worker's advertised resources. -/
def canWorkerHandleTask (res : Resources) (w : Worker) (t : Task) : Bool :=
  if w.status ≠ "available" ∨ w.currentTaskId ≠ none then false
  else if t.modelName ≠ "" ∧ t.modelName ∉ w.capabilities then false
  else
    let r := taskRequirement t
    decide (¬ (w.availableCPU < res.cpu + r.cpu ∨ memGB w < res.memory + r.memory ∨
               w.availableGPU < res.gpu + r.gpu))

/-- The byte count `int64(memReq * 1024 * 1024 * 1024)` subtracted from the
worker's available memory on assignment (memReq is 1.0 or 2.0 GB). -/
def memReqBytes (t : Task) : Int :=
  if t.modelName = "" then 1073741824 else 2147483648

/-- `Scheduler.updateWorkerResources`: decrements the worker's advertised
resources by the requirement and overwrites the global triple with it. -/
def updateWorkerResources (w : Worker) (t : Task) : Worker × Resources :=
  let r := taskRequirement t
  ({ w with
      availableCPU := w.availableCPU - r.cpu,
      availableMemory := w.availableMemory - memReqBytes t,
      availableGPU := w.availableGPU - r.gpu },
   r)

/-- The assignment write sequence shared by the fit path and the fallback
path of `processPendingTasks`: task to scheduled with the worker's id, then
worker to busy with the task's id and decremented resources. -/
def assignTask (now : Int) (st : Store) (w : Worker) (t : Task) :
    Store × Resources :=
  let t1 : Task := { t with status := "scheduled", workerId := some w.id, updatedAt := now }
  let st1 := updateTask st t1 now
  let w1 : Worker := { w with status := "busy", currentTaskId := some t.id }
  let wr := updateWorkerResources w1 t
  (updateWorker st1 wr.1, wr.2)

/-- Find the first worker passing the fit check and remove it from the
candidate list (`append(availableWorkers, availableWorkers[i+1:]...)`). -/
def extractFit (res : Resources) (t : Task) : List Worker → Option (Worker × List Worker)
  | [] => none
  | w :: ws =>
      if canWorkerHandleTask res w t then some (w, ws)
      else
        match extractFit res t ws with
        | some (w2, ws2) => some (w2, w :: ws2)
        | none => none

/-- One iteration of the task loop of `processPendingTasks`: try the first
fitting worker; if none fits and workers remain, fall back to assigning the
first remaining worker. -/
def processOneTask (now : Int) (acc : Store × Resources × List Worker) (t : Task) :
    Store × Resources × List Worker :=
  match extractFit acc.2.1 t acc.2.2 with
  | some (w, rest) =>
      let sr := assignTask now acc.1 w t
      (sr.1, sr.2, rest)
  | none =>
      match acc.2.2 with
      | [] => acc
      | w :: rest =>
          let sr := assignTask now acc.1 w t
          (sr.1, sr.2, rest)

/-- `Scheduler.processPendingTasks`: one assignment pass. -/
def processPendingTasks (cfg : Config) (now : Int) (s : SchedState) : SchedState :=
  if (getPendingTasks s.store cfg.maxTasks).isEmpty then s
  else if (listAvailable s.store now).isEmpty then s
  else
    { store :=
        ((getPendingTasks s.store cfg.maxTasks).foldl (processOneTask now)
          (s.store, s.resources, listAvailable s.store now)).1,
      resources :=
        ((getPendingTasks s.store cfg.maxTasks).foldl (processOneTask now)
          (s.store, s.resources, listAvailable s.store now)).2.1 }

/-- The record the timeout sweeper writes for a timed-out task. -/
def failedTimeoutTask (t : Task) (now : Int) : Task :=
  { t with status := "failed", error := "Task timed out", updatedAt := now }

/-- The worker-freeing step of the sweeper: if the timed-out task carries a
worker id, fetch that worker (from the already-updated store) and return it
to available with the current task cleared. -/
def sweepFreeWorker (st : Store) (t : Task) : Store :=
  match t.workerId with
  | none => st
  | some wid =>
      match getWorkerById st wid with
      | none => st
      | some w => updateWorker st { w with status := "available", currentTaskId := none }

/-- One iteration of the sweep loop of `checkTaskTimeouts`: a running task
whose age (`now - started_at`) exceeds the configured `TaskTimeout` is
marked failed and its worker, if any, is freed. -/
def sweepOneTask (cfg : Config) (now : Int) (st : Store) (t : Task) : Store :=
  match t.startedAt with
  | none => st
  | some s0 =>
      if cfg.taskTimeout < now - s0 then
        sweepFreeWorker (updateTask st (failedTimeoutTask t now) now) t
      else st

/-- `Scheduler.checkTaskTimeouts`: sweep the first 100 running tasks. -/
def checkTaskTimeouts (cfg : Config) (now : Int) (st : Store) : Store :=
  (listTasksByStatus st "running" 100 0).foldl (sweepOneTask cfg now) st

/-- The orphan branch of `handleFailedWorkers`: requeue with an incremented
retry count while under the budget, otherwise terminal failure. -/
def retryOrFail (t : Task) (now : Int) : Task :=
  if t.retryCount < t.maxRetries then
    { t with status := "pending", workerId := none, retryCount := t.retryCount + 1, updatedAt := now }
  else
    { t with status := "failed", error := "Task failed after maximum retry attempts", updatedAt := now }

/-- The offline write of `handleFailedWorkers`. -/
def offlineWorker (w : Worker) : Worker :=
  { w with status := "offline", currentTaskId := none }

/-- One iteration of the worker loop of `handleFailedWorkers`: a worker whose
last heartbeat is older than `now - 2 * HeartbeatInterval` has its assigned
task (if any, and if it loads) retried or failed, and is marked offline; a
failed task load skips the worker entirely (`continue`). -/
def monitorOneWorker (cfg : Config) (now : Int) (st : Store) (w : Worker) : Store :=
  if w.lastHeartbeat < now - 2 * cfg.heartbeatInterval then
    match w.currentTaskId with
    | some tid =>
        match getTaskById st tid with
        | none => st
        | some t => updateWorker (updateTask st (retryOrFail t now) now) (offlineWorker w)
    | none => updateWorker st (offlineWorker w)
  else st

/-- `Scheduler.handleFailedWorkers`: one liveness-monitor pass; the worker
set considered is the result of `ListAvailable`. -/
def handleFailedWorkers (cfg : Config) (now : Int) (st : Store) : Store :=
  (listAvailable st now).foldl (monitorOneWorker cfg now) st

/-! ### REST handlers (`api` package) -/

/-- `api.CreateTaskRequest`. -/
structure CreateTaskRequest where
  name : String := ""
  description : String := ""
  modelName : String := ""
  priority : Int := 2
  input : String := ""
  userId : String := ""
  timeout : Int := 0
  maxRetries : Int := 0

/-- `models.NewTask` with the generated uuid and `time.Now()` passed in. -/
def newTask (i : String) (now : Int) (name modelName userId : String) (priority : Int)
    (input : String) : Task :=
  { id := i, name := name, modelName := modelName, status := "pending",
    priority := priority, input := input, createdAt := now, updatedAt := now,
    userId := userId, timeout := 1800, retryCount := 0, maxRetries := 3 }

/-- `TaskRepository.Create`: the INSERT fails on an id collision
(primary-key conflict), otherwise appends the row. -/
def createTaskRepo (st : Store) (t : Task) : Option Store :=
  if st.tasks.any (fun x => x.id = t.id) then none
  else some { st with tasks := st.tasks ++ [t] }

/-- The task record `api.Server.createTask` builds from the request:
`NewTask` defaults, then the description, then a positive request timeout
and a positive request max_retries override the defaults. -/
def builtTask (i : String) (req : CreateTaskRequest) (now : Int) : Task :=
  let t0 := { newTask i now req.name req.modelName req.userId req.priority req.input with
              description := req.description }
  let t1 := if 0 < req.timeout then { t0 with timeout := req.timeout } else t0
  if 0 < req.maxRetries then { t1 with maxRetries := req.maxRetries } else t1

/-- `api.Server.createTask`: insert the built task; 201 on success. -/
def createTaskHandler (st : Store) (i : String) (req : CreateTaskRequest) (now : Int) :
    Nat × Store :=
  match createTaskRepo st (builtTask i req now) with
  | none => (500, st)
  | some st1 => (201, st1)

/-- `api.Server.cancelTask` (`DELETE /tasks/:id`): 404 when the task is
missing; 400 unless the status is pending or scheduled; otherwise write
status cancelled and return 200. -/
def cancelTask (st : Store) (i : String) (now : Int) : Nat × Store :=
  match getTaskById st i with
  | none => (404, st)
  | some t =>
      if t.status ≠ "pending" ∧ t.status ≠ "scheduled" then (400, st)
      else (200, updateTask st { t with status := "cancelled", updatedAt := now } now)

/-- `api.RegisterWorkerRequest`. -/
structure RegisterWorkerRequest where
  name : String := ""
  capabilities : List String := []
  availableMemory : Int := 0
  availableCPU : Rat := 0
  availableGPU : Rat := 0

/-- `WorkerRepository.Create` (INSERT, id collision fails). -/
def createWorkerRepo (st : Store) (w : Worker) : Option Store :=
  if st.workers.any (fun x => x.id = w.id) then none
  else some { st with workers := st.workers ++ [w] }

/-- The worker record `api.Server.registerWorker` builds:
`models.NewWorker` plus the advertised resources from the request. -/
def registeredWorker (i : String) (req : RegisterWorkerRequest) (now : Int) : Worker :=
  { id := i, name := req.name, status := "available", capabilities := req.capabilities,
    currentTaskId := none, lastHeartbeat := now, registeredAt := now,
    availableMemory := req.availableMemory, availableCPU := req.availableCPU,
    availableGPU := req.availableGPU, totalTasksHandled := 0 }

/-- `api.Server.registerWorker`: insert the built worker; 201 on success. -/
def registerWorkerHandler (st : Store) (i : String) (req : RegisterWorkerRequest) (now : Int) :
    Nat × Store :=
  match createWorkerRepo st (registeredWorker i req now) with
  | none => (500, st)
  | some st1 => (201, st1)

/-- `api.UpdateWorkerStatusRequest`. -/
structure UpdateWorkerStatusRequest where
  status : String := ""
  currentTaskId : Option String := none
  taskStatus : String := ""
  taskOutput : Option String := none
  taskError : String := ""
  availableMemory : Int := 0
  availableCPU : Rat := 0
  availableGPU : Rat := 0

/-- The task mutation of `api.Server.updateTaskStatus`: the reported status
is written unconditionally; `started_at` is stamped on the first `running`
report; a `completed`/`failed` report stamps `completed_at` and copies the
non-empty output and error. -/
def applyTaskReport (t : Task) (req : UpdateWorkerStatusRequest) (now : Int) : Task :=
  let t1 : Task := { t with status := req.taskStatus, updatedAt := now }
  let t2 := if req.taskStatus = "running" ∧ t.startedAt = none
            then { t1 with startedAt := some now } else t1
  if req.taskStatus = "completed" ∨ req.taskStatus = "failed" then
    let t3 : Task := { t2 with completedAt := some now }
    let t4 := match req.taskOutput with
              | some o => { t3 with output := o }
              | none => t3
    if req.taskError ≠ "" then { t4 with error := req.taskError } else t4
  else t2

/-- `api.Server.updateTaskStatus`: load the task and write the report onto
it; a failed load propagates as an error. -/
def updateTaskStatusFn (st : Store) (taskId : String) (req : UpdateWorkerStatusRequest)
    (now : Int) : Option Store :=
  (getTaskById st taskId).map (fun t => updateTask st (applyTaskReport t req now) now)

/-- The worker record the status handler writes first: all request fields
copied over, heartbeat stamped. -/
def reportWorkerRecord (w : Worker) (req : UpdateWorkerStatusRequest) (now : Int) : Worker :=
  { w with
      status := req.status, currentTaskId := req.currentTaskId,
      lastHeartbeat := now, availableMemory := req.availableMemory,
      availableCPU := req.availableCPU, availableGPU := req.availableGPU }

/-- The second worker write after a terminal task report: handled counter
bumped, task cleared, back to available. -/
def finishWorkerRecord (w1 : Worker) : Worker :=
  { w1 with
      totalTasksHandled := w1.totalTasksHandled + 1,
      currentTaskId := none, status := "available" }

/-- `api.Server.updateWorkerStatus` (`PUT /workers/:id/status`): overwrite the
worker record from the request (stamping the heartbeat), then, when a task
status is reported and the written current task id is set (it equals
`req.currentTaskId`), write the task report; a terminal report then returns
the worker to available with the task cleared and the handled counter
bumped. -/
def updateWorkerStatus (st : Store) (workerId : String) (req : UpdateWorkerStatusRequest)
    (now : Int) : Nat × Store :=
  match getWorkerById st workerId with
  | none => (404, st)
  | some w =>
      if req.taskStatus = "" then (200, updateWorker st (reportWorkerRecord w req now))
      else
        match req.currentTaskId with
        | none => (200, updateWorker st (reportWorkerRecord w req now))
        | some tid =>
            match updateTaskStatusFn (updateWorker st (reportWorkerRecord w req now)) tid req now with
            | none => (500, updateWorker st (reportWorkerRecord w req now))
            | some st2 =>
                if req.taskStatus = "completed" ∨ req.taskStatus = "failed" then
                  (200, updateWorker st2 (finishWorkerRecord (reportWorkerRecord w req now)))
                else (200, st2)

/-- `api.Server.workerHeartbeat` (`PUT /workers/:id/heartbeat`). -/
def workerHeartbeatHandler (st : Store) (i : String) (now : Int) : Store :=
  updateHeartbeat st i now

/-! ### Reachable system states

The operations of the system as driven by clients, workers and the
scheduler loop, starting from an empty store and a zeroed resource triple. -/

/-- States reachable through the embedded handlers and scheduler passes. -/
inductive Reachable : SchedState → Prop where
  | init : Reachable { store := {} }
  | createTask {s} (i : String) (req : CreateTaskRequest) (now : Int) :
      Reachable s → Reachable { s with store := (createTaskHandler s.store i req now).2 }
  | registerWorker {s} (i : String) (req : RegisterWorkerRequest) (now : Int) :
      Reachable s → Reachable { s with store := (registerWorkerHandler s.store i req now).2 }
  | heartbeat {s} (i : String) (now : Int) :
      Reachable s → Reachable { s with store := workerHeartbeatHandler s.store i now }
  | cancel {s} (i : String) (now : Int) :
      Reachable s → Reachable { s with store := (cancelTask s.store i now).2 }
  | report {s} (i : String) (req : UpdateWorkerStatusRequest) (now : Int) :
      Reachable s → Reachable { s with store := (updateWorkerStatus s.store i req now).2 }
  | assign {s} (cfg : Config) (now : Int) :
      Reachable s → Reachable (processPendingTasks cfg now s)
  | sweep {s} (cfg : Config) (now : Int) :
      Reachable s → Reachable { s with store := checkTaskTimeouts cfg now s.store }
  | monitor {s} (cfg : Config) (now : Int) :
      Reachable s → Reachable { s with store := handleFailedWorkers cfg now s.store }

/-! ### Spec-side definitions and derived observations -/

/-- The spec ordering of `list_pending_tasks` (invariant I4), written from
the spec text: priority descending, then created_at ascending, with ties on
(priority, created_at) broken by id ascending. -/
def specPendingOrder (a b : Task) : Prop :=
  b.priority < a.priority ∨ (a.priority = b.priority ∧
    (a.createdAt < b.createdAt ∨ (a.createdAt = b.createdAt ∧ (a.id = b.id ∨ a.id.data < b.id.data))))

instance : DecidableRel specPendingOrder := fun a b =>
  inferInstanceAs (Decidable (b.priority < a.priority ∨ (a.priority = b.priority ∧
    (a.createdAt < b.createdAt ∨ (a.createdAt = b.createdAt ∧ (a.id = b.id ∨ a.id.data < b.id.data))))))

/-- `list_pending_tasks` as worded by the spec: up to `limit` pending tasks
in full I4 order including the id tie-break. -/
def specListPendingTasks (st : Store) (limit : Nat) : List Task :=
  (List.insertionSort specPendingOrder (st.tasks.filter (fun t => t.status = "pending"))).take limit

/-- The CPU cores committed to worker `wid`: the sum of the per-task CPU
requirement over tasks assigned to it in status scheduled or running
(the quantity bounded by spec property P2). -/
def committedCPU (st : Store) (wid : String) : Rat :=
  ((st.tasks.filter (fun t =>
      decide (t.workerId = some wid ∧ (t.status = "scheduled" ∨ t.status = "running")))).map
    (fun t => (taskRequirement t).cpu)).sum

/-- Tasks never hold more retries than their budget (spec property P3). -/
def RetryOK (st : Store) : Prop := ∀ t ∈ st.tasks, t.retryCount ≤ t.maxRetries

/-- The tasks table never holds two rows with the same id (primary key). -/
def TaskIdsNodup (st : Store) : Prop := (st.tasks.map Task.id).Nodup

/-! ### Concrete fixtures for the settled claims -/

/-- A task already failed by the timeout sweeper (scenario S5 of the spec). -/
def c1Task : Task :=
  { id := "t1", status := "failed", error := "Task timed out", startedAt := some 0,
    completedAt := some 61, updatedAt := 61, workerId := some "w1" }

def c1Worker : Worker := { id := "w1", status := "available", lastHeartbeat := 0 }

def c1Store : Store := { tasks := [c1Task], workers := [c1Worker] }

/-- The worker's late terminal report for the already-failed task. -/
def c1Req : UpdateWorkerStatusRequest :=
  { status := "available", currentTaskId := some "t1", taskStatus := "completed",
    taskOutput := some "ok" }

/-- A pending task requiring model `m`. -/
def c2Task : Task := { id := "t1", modelName := "m", priority := 2, createdAt := 0 }

/-- An available worker that does not advertise capability `m`. -/
def c2Worker : Worker :=
  { id := "w1", status := "available", capabilities := [], lastHeartbeat := 90,
    availableMemory := 8589934592, availableCPU := 4, availableGPU := 1 }

def c2Store : Store := { tasks := [c2Task], workers := [c2Worker] }

def c2Cfg : Config := {}

/-- A busy worker holding task t1 whose heartbeat is long stale. -/
def c3Worker : Worker :=
  { id := "w1", status := "busy", currentTaskId := some "t1", lastHeartbeat := 0 }

def c3Task : Task := { id := "t1", status := "running", startedAt := some 0, workerId := some "w1" }

def c3Store : Store := { tasks := [c3Task], workers := [c3Worker] }

def c3Cfg : Config := {}

/-- A running task with a 60-second per-task timeout, 100 seconds old. -/
def c4Task : Task :=
  { id := "t1", status := "running", startedAt := some 0, timeout := 60, workerId := some "w1" }

def c4Worker : Worker :=
  { id := "w1", status := "busy", currentTaskId := some "t1", lastHeartbeat := 90 }

def c4Store : Store := { tasks := [c4Task], workers := [c4Worker] }

def c4Cfg : Config := {}

/-- Registration advertising a tenth of a CPU core. -/
def c5RegReq : RegisterWorkerRequest :=
  { name := "w", availableMemory := 8589934592, availableCPU := 1/10, availableGPU := 1 }

def c5CreateReq : CreateTaskRequest := { name := "t", modelName := "m" }

def c5State1 : SchedState := { store := (registerWorkerHandler ({} : Store) "w1" c5RegReq 0).2 }

def c5State2 : SchedState := { c5State1 with store := (createTaskHandler c5State1.store "t1" c5CreateReq 0).2 }

/-- The state after one assignment pass over `c5State2`. -/
def c5Bad : SchedState := processPendingTasks {} 30 c5State2

/-- The record the assignment pass writes for task t1 in `c5Bad`. -/
def c5SchedTask : Task :=
  { id := "t1", name := "t", modelName := "m", status := "scheduled", priority := 2,
    createdAt := 0, updatedAt := 30, workerId := some "w1" }

/-- The registered worker record of `c5State2` before the assignment pass. -/
def c5Worker : Worker :=
  { id := "w1", name := "w", status := "available", lastHeartbeat := 0,
    availableMemory := 8589934592, availableCPU := 1/10, availableGPU := 1 }

/-- Two pending tasks tied on (priority, created_at), stored with id `b`
physically before id `a`. -/
def c7TaskB : Task := { id := "b", priority := 2, createdAt := 5, status := "pending" }

def c7TaskA : Task := { id := "a", priority := 2, createdAt := 5, status := "pending" }

def c7Store : Store := { tasks := [c7TaskB, c7TaskA] }

/-- A cancellable pending task. -/
def c8Task : Task := { id := "t1", status := "pending" }

def c8Store : Store := { tasks := [c8Task] }

/-- A stale worker holding task t1, and that task, for exercising the
orphan branch of the liveness monitor. -/
def c6Worker : Worker :=
  { id := "w1", status := "available", currentTaskId := some "t1", lastHeartbeat := 0 }

def c6Task : Task := { id := "t1", status := "running", workerId := some "w1" }

def c6Store : Store := { tasks := [c6Task], workers := [c6Worker] }

def c6Cfg : Config := {}

/-- A reachable one-task state for witnessing the retry-budget invariant. -/
def c6Reach : SchedState :=
  { store := (createTaskHandler ({} : Store) "t1" { name := "t" } 0).2 }

/-! ### Basic store lemmas -/

theorem getTaskById_mem {st : Store} {i : String} {t : Task}
    (h : getTaskById st i = some t) : t ∈ st.tasks ∧ t.id = i := by
  refine ⟨List.mem_of_find?_eq_some h, ?_⟩
  have := List.find?_some h
  exact of_decide_eq_true this

theorem find?_map_update (l : List Task) (i : String) (t : Task)
    (h : l.find? (fun x => x.id = i) = some t) (tnew : Task) (hid : tnew.id = i) (now : Int) :
    (l.map (fun x => if x.id = tnew.id then mergeTaskRecord x tnew now else x)).find?
      (fun x => x.id = i) = some (mergeTaskRecord t tnew now) := by
  induction l with
  | nil => simp at h
  | cons a l ih =>
      by_cases ha : a.id = i
      · have ht : t = a := by
          rw [List.find?_cons_of_pos _ (by simpa using ha)] at h
          exact (Option.some_inj.mp h).symm
        subst ht
        have hmatch : t.id = tnew.id := by rw [hid]; exact ha
        simp only [List.map_cons, if_pos hmatch]
        rw [List.find?_cons_of_pos _ ?_]
        show decide ((mergeTaskRecord t tnew now).id = i) = true
        have hmid : (mergeTaskRecord t tnew now).id = t.id := rfl
        rw [hmid]
        simpa using ha
      · have hne : ¬ a.id = tnew.id := by rw [hid]; exact ha
        rw [List.find?_cons_of_neg _ (by simpa using ha)] at h
        simp only [List.map_cons, if_neg hne]
        rw [List.find?_cons_of_neg _ (by simpa using ha)]
        exact ih h

theorem getTaskById_updateTask {st : Store} {i : String} {t : Task}
    (h : getTaskById st i = some t) (tnew : Task) (hid : tnew.id = i) (now : Int) :
    getTaskById (updateTask st tnew now) i = some (mergeTaskRecord t tnew now) :=
  find?_map_update st.tasks i t h tnew hid now

/-! ### Claim theorems -/

/-- C1: the worker status report handler has no terminal-state guard: on a
task already failed by the timeout sweeper, a `completed` report returns
success (200) yet rewrites the task's status, output, completed_at and
updated_at — refuting the claimed no-state-change idempotence. -/
theorem terminal_report_overwrites_task :
    (getTaskById c1Store "t1").map (fun t => t.status) = some "failed" ∧
    (updateWorkerStatus c1Store "w1" c1Req 70).1 = 200 ∧
    (getTaskById (updateWorkerStatus c1Store "w1" c1Req 70).2 "t1").map
      (fun t => (t.status, t.output, t.updatedAt, t.completedAt)) =
      some ("completed", "ok", 70, some 70) := by decide

/-- C2: a pending task that no remaining worker fits (here: the only worker
lacks capability `m`) is not held in pending — the fallback branch of
`processPendingTasks` assigns it to the first remaining worker anyway. -/
theorem fallback_assigns_unfit_worker :
    canWorkerHandleTask {} c2Worker c2Task = false ∧
    (getTaskById (processPendingTasks c2Cfg 100 { store := c2Store }).store "t1").map
      (fun t => (t.status, t.workerId)) = some ("scheduled", some "w1") := by decide

/-- C3: a busy worker whose heartbeat is far older than
`now - 2 * heartbeat_interval` is never considered by the liveness monitor,
because `handleFailedWorkers` enumerates `ListAvailable`, which returns only
available, taskless, recently-heartbeated workers: the pass is a no-op. -/
theorem liveness_monitor_skips_stale_busy_worker :
    c3Worker.lastHeartbeat < 1000 - 2 * c3Cfg.heartbeatInterval ∧
    c3Worker.currentTaskId = some "t1" ∧
    handleFailedWorkers c3Cfg 1000 c3Store = c3Store := by decide

/-- C4: the timeout sweeper compares task age only against the configured
`TaskTimeout` (1800 s), ignoring the task's own 60-second timeout: a running
task 100 seconds old, past its per-task budget, is left untouched. -/
theorem sweeper_ignores_per_task_timeout :
    c4Task.status = "running" ∧ c4Task.startedAt = some 0 ∧
    min c4Task.timeout c4Cfg.taskTimeout < 100 - 0 ∧
    checkTaskTimeouts c4Cfg 100 c4Store = c4Store := by decide

/-- C10: the cancel handler writes only the task record — the workers table
of the store is unchanged by `cancelTask` on every input. -/
theorem cancel_preserves_workers (st : Store) (i : String) (now : Int) :
    (cancelTask st i now).2.workers = st.workers := by
  unfold cancelTask
  cases h : getTaskById st i with
  | none => rfl
  | some t =>
      by_cases hc : t.status ≠ "pending" ∧ t.status ≠ "scheduled"
      · simp [hc]
      · simp [hc, updateTask]

/-- C8: on an existing task, `DELETE /tasks/:id` returns 200 and writes
status cancelled exactly when the task is pending or scheduled, and
otherwise returns 400 leaving the store unchanged. -/
theorem cancel_iff_pending_or_scheduled (st : Store) (i : String) (now : Int) (t : Task)
    (h : getTaskById st i = some t) :
    ((cancelTask st i now).1 = 200 ↔ (t.status = "pending" ∨ t.status = "scheduled")) ∧
    ((t.status = "pending" ∨ t.status = "scheduled") →
      getTaskById (cancelTask st i now).2 i =
        some { t with status := "cancelled", updatedAt := now }) ∧
    (¬ (t.status = "pending" ∨ t.status = "scheduled") → (cancelTask st i now).2 = st) := by
  have hid : t.id = i := (getTaskById_mem h).2
  have e : cancelTask st i now =
      (if t.status ≠ "pending" ∧ t.status ≠ "scheduled" then (400, st)
       else (200, updateTask st { t with status := "cancelled", updatedAt := now } now)) := by
    unfold cancelTask
    rw [h]
  by_cases hc : t.status ≠ "pending" ∧ t.status ≠ "scheduled"
  · rw [e, if_pos hc]
    refine ⟨?_, ?_, ?_⟩
    · constructor
      · intro habs
        exact absurd habs (show ¬ ((400, st).1 = 200) from by intro hx; simp at hx)
      · intro hor
        rcases hor with h1 | h1
        · exact absurd h1 hc.1
        · exact absurd h1 hc.2
    · intro hor
      rcases hor with h1 | h1
      · exact absurd h1 hc.1
      · exact absurd h1 hc.2
    · intro _; rfl
  · rw [e, if_neg hc]
    push_neg at hc
    refine ⟨?_, ?_, ?_⟩
    · constructor
      · intro _
        by_cases hp : t.status = "pending"
        · exact Or.inl hp
        · exact Or.inr (hc hp)
      · intro _; rfl
    · intro _
      have hg := getTaskById_updateTask h
        { t with status := "cancelled", updatedAt := now } hid now
      rw [hg]
      rfl
    · intro habs
      by_cases hp : t.status = "pending"
      · exact absurd (Or.inl hp) habs
      · exact absurd (Or.inr (hc hp)) habs

/-- C8 witness: cancelling the concrete pending task t1 succeeds with 200
and its stored status becomes cancelled. -/
theorem cancel_iff_witness :
    (cancelTask c8Store "t1" 5).1 = 200 ∧
    getTaskById (cancelTask c8Store "t1" 5).2 "t1" =
      some { c8Task with status := "cancelled", updatedAt := 5 } := by
  have h := cancel_iff_pending_or_scheduled c8Store "t1" 5 c8Task (by decide)
  exact ⟨h.1.mpr (Or.inl rfl), h.2.1 (Or.inl rfl)⟩

/-- C7 counterexample: two pending tasks tied on (priority, created_at) and
stored with id `b` before id `a` are returned in store order `[b, a]`,
not in the claimed id-tiebreak order `[a, b]` — the SQL `ORDER BY` has no
id column. -/
theorem pending_order_lacks_id_tiebreak :
    (getPendingTasks c7Store 10).map (fun t => t.id) = ["b", "a"] ∧
    (specListPendingTasks c7Store 10).map (fun t => t.id) = ["a", "b"] ∧
    getPendingTasks c7Store 10 ≠ specListPendingTasks c7Store 10 := by decide

/-- C7 amended: `GetPendingTasks` returns at most `limit` tasks, all pending
rows of the store, sorted by priority descending then created_at ascending;
ties on (priority, created_at) keep the table's row order (no id tie-break).
The assignment pass iterates exactly this list (`processPendingTasks` folds
over `getPendingTasks`). -/
theorem getPendingTasks_sorted_and_bounded (st : Store) (limit : Nat) :
    List.Sorted pendingOrder (getPendingTasks st limit) ∧
    (∀ t ∈ getPendingTasks st limit, t.status = "pending" ∧ t ∈ st.tasks) ∧
    (getPendingTasks st limit).length ≤ limit := by
  refine ⟨?_, ?_, ?_⟩
  · exact List.Pairwise.sublist (List.take_sublist _ _)
      (List.sorted_insertionSort pendingOrder _)
  · intro t ht
    unfold getPendingTasks at ht
    have h1 := List.mem_of_mem_take ht
    have h2 := (List.mem_insertionSort pendingOrder).mp h1
    have h3 := List.mem_filter.mp h2
    exact ⟨of_decide_eq_true h3.2, h3.1⟩
  · rw [getPendingTasks, List.length_take]
    exact min_le_left _ _

/-- C5: the resource-fit invariant fails on a reachable state: starting from
the empty store, register a worker advertising 0.1 CPU cores, create a task
requiring 1.0 core (model `m`, which the worker does not even advertise),
and run one assignment pass. The fit check rejects the pair, yet the
fallback branch schedules the task on the worker, so the committed CPU (1)
exceeds the advertised capacity (0.1). -/
theorem reachable_overcommit_breaks_fit_invariant :
    Reachable c5Bad ∧
    c5Bad.store.tasks = [c5SchedTask] ∧
    getWorkerById c5State2.store "w1" = some c5Worker ∧
    canWorkerHandleTask {} c5Worker c5SchedTask = false ∧
    committedCPU c5Bad.store "w1" = 1 ∧
    c5RegReq.availableCPU < committedCPU c5Bad.store "w1" := by
  have htasks : c5Bad.store.tasks = [c5SchedTask] := by decide
  have hcpu : committedCPU c5Bad.store "w1" = 1 := by
    have hm : ¬ (("m" : String) = "") := by decide
    rw [committedCPU, htasks]
    norm_num [taskRequirement, c5SchedTask, hm]
  refine ⟨?_, htasks, ?_, ?_, hcpu, ?_⟩
  · exact Reachable.assign {} 30
      (Reachable.createTask "t1" c5CreateReq 0
        (Reachable.registerWorker "w1" c5RegReq 0 Reachable.init))
  · rfl
  · decide
  · rw [hcpu]
    show (1/10 : Rat) < 1
    norm_num

/-! ### Liveness-monitor idempotence machinery -/

theorem updateTask_workers (st : Store) (t : Task) (now : Int) :
    (updateTask st t now).workers = st.workers := rfl

theorem updateWorker_tasks (st : Store) (w : Worker) :
    (updateWorker st w).tasks = st.tasks := rfl

/-- Every worker row with id `i` is marked offline. -/
def OfflineAt (i : String) (st : Store) : Prop :=
  ∀ y ∈ st.workers, y.id = i → y.status = "offline"

theorem offlineAt_updateWorker_self (st : Store) (w0 : Worker) (h : w0.status = "offline") :
    OfflineAt w0.id (updateWorker st w0) := by
  intro y hy hid
  obtain ⟨x, hx, rfl⟩ := List.mem_map.mp hy
  by_cases hxi : x.id = w0.id
  · rw [if_pos hxi]
    exact h
  · rw [if_neg hxi] at hid
    exact absurd hid hxi

theorem offlineAt_updateWorker (st : Store) (i : String) (w0 : Worker)
    (h0 : w0.status = "offline") (h : OfflineAt i st) :
    OfflineAt i (updateWorker st w0) := by
  intro y hy hid
  obtain ⟨x, hx, rfl⟩ := List.mem_map.mp hy
  by_cases hxi : x.id = w0.id
  · rw [if_pos hxi]
    exact h0
  · rw [if_neg hxi] at hid ⊢
    exact h x hx hid

theorem monitorOne_not_stale {cfg : Config} {now : Int} {w : Worker} (st : Store)
    (h : ¬ w.lastHeartbeat < now - 2 * cfg.heartbeatInterval) :
    monitorOneWorker cfg now st w = st := by
  simp only [monitorOneWorker, if_neg h]

theorem monitorOne_stale_none {cfg : Config} {now : Int} {w : Worker} (st : Store)
    (h : w.lastHeartbeat < now - 2 * cfg.heartbeatInterval)
    (hnone : w.currentTaskId = none) :
    monitorOneWorker cfg now st w = updateWorker st (offlineWorker w) := by
  simp only [monitorOneWorker, if_pos h, hnone]

theorem monitorOne_stale_lost {cfg : Config} {now : Int} {w : Worker} (st : Store) {tid : String}
    (h : w.lastHeartbeat < now - 2 * cfg.heartbeatInterval)
    (htid : w.currentTaskId = some tid) (hg : getTaskById st tid = none) :
    monitorOneWorker cfg now st w = st := by
  simp only [monitorOneWorker, if_pos h, htid, hg]

theorem monitorOne_stale_task {cfg : Config} {now : Int} {w : Worker} (st : Store)
    {tid : String} {t : Task}
    (h : w.lastHeartbeat < now - 2 * cfg.heartbeatInterval)
    (htid : w.currentTaskId = some tid) (hg : getTaskById st tid = some t) :
    monitorOneWorker cfg now st w =
      updateWorker (updateTask st (retryOrFail t now) now) (offlineWorker w) := by
  simp only [monitorOneWorker, if_pos h, htid, hg]

theorem offlineAt_monitorOne (cfg : Config) (now : Int) (st : Store) (w : Worker) (i : String)
    (h : OfflineAt i st) : OfflineAt i (monitorOneWorker cfg now st w) := by
  by_cases hstale : w.lastHeartbeat < now - 2 * cfg.heartbeatInterval
  · cases hw : w.currentTaskId with
    | none =>
        rw [monitorOne_stale_none st hstale hw]
        exact offlineAt_updateWorker st i (offlineWorker w) rfl h
    | some tid =>
        cases hg : getTaskById st tid with
        | none =>
            rw [monitorOne_stale_lost st hstale hw hg]
            exact h
        | some t =>
            rw [monitorOne_stale_task st hstale hw hg]
            apply offlineAt_updateWorker _ i (offlineWorker w) rfl
            intro y hy hid
            exact h y hy hid
  · rw [monitorOne_not_stale st hstale]
    exact h

theorem offlineAt_foldMonitor (cfg : Config) (now : Int) (i : String) :
    ∀ (l : List Worker) (st : Store), OfflineAt i st →
      OfflineAt i (l.foldl (monitorOneWorker cfg now) st) := by
  intro l
  induction l with
  | nil => intro st h; exact h
  | cons a l ih =>
      intro st h
      simp only [List.foldl_cons]
      exact ih _ (offlineAt_monitorOne cfg now st a i h)

theorem pass_sets_offline (cfg : Config) (now : Int) (w : Worker)
    (hstale : w.lastHeartbeat < now - 2 * cfg.heartbeatInterval) :
    ∀ (l : List Worker) (st : Store), (∀ x ∈ l, x.currentTaskId = none) → w ∈ l →
      OfflineAt w.id (l.foldl (monitorOneWorker cfg now) st) := by
  intro l
  induction l with
  | nil => intro st _ hw; cases hw
  | cons a l ih =>
      intro st hno hw
      simp only [List.foldl_cons]
      rcases List.mem_cons.mp hw with rfl | hw2
      · have hnone : w.currentTaskId = none := hno w (List.mem_cons_self w l)
        rw [monitorOne_stale_none st hstale hnone]
        exact offlineAt_foldMonitor cfg now w.id l _
          (offlineAt_updateWorker_self st (offlineWorker w) rfl)
      · exact ih _ (fun x hx => hno x (List.mem_cons_of_mem _ hx)) hw2

theorem nonoffline_mem_monitorOne (cfg : Config) (now : Int) (st : Store) (w : Worker)
    (y : Worker) (hy : y ∈ (monitorOneWorker cfg now st w).workers)
    (hys : y.status ≠ "offline") : y ∈ st.workers := by
  have hfrom : ∀ st2 : Store, st2.workers = st.workers →
      y ∈ (updateWorker st2 (offlineWorker w)).workers → y ∈ st.workers := by
    intro st2 he hy2
    rw [updateWorker] at hy2
    obtain ⟨x, hx, hxy⟩ := List.mem_map.mp hy2
    by_cases hxi : x.id = (offlineWorker w).id
    · rw [if_pos hxi] at hxy
      exfalso
      apply hys
      rw [← hxy]
      rfl
    · rw [if_neg hxi] at hxy
      rw [← hxy, ← he]
      exact hx
  by_cases hstale : w.lastHeartbeat < now - 2 * cfg.heartbeatInterval
  · cases hw : w.currentTaskId with
    | none =>
        rw [monitorOne_stale_none st hstale hw] at hy
        exact hfrom st rfl hy
    | some tid =>
        cases hg : getTaskById st tid with
        | none =>
            rw [monitorOne_stale_lost st hstale hw hg] at hy
            exact hy
        | some t =>
            rw [monitorOne_stale_task st hstale hw hg] at hy
            exact hfrom (updateTask st (retryOrFail t now) now) rfl hy
  · rw [monitorOne_not_stale st hstale] at hy
    exact hy

theorem nonoffline_mem_fold (cfg : Config) (now : Int) (y : Worker)
    (hys : y.status ≠ "offline") :
    ∀ (l : List Worker) (st : Store),
      y ∈ (l.foldl (monitorOneWorker cfg now) st).workers → y ∈ st.workers := by
  intro l
  induction l with
  | nil => intro st hy; exact hy
  | cons a l ih =>
      intro st hy
      simp only [List.foldl_cons] at hy
      exact nonoffline_mem_monitorOne cfg now st a y (ih _ hy) hys

theorem mem_listAvailable {st : Store} {now : Int} {w : Worker} :
    w ∈ listAvailable st now ↔
      (w ∈ st.workers ∧ w.status = "available" ∧ w.currentTaskId = none ∧
        now - 60 < w.lastHeartbeat) := by
  unfold listAvailable
  rw [List.mem_insertionSort, List.mem_filter]
  constructor
  · intro ⟨h1, h2⟩
    exact ⟨h1, of_decide_eq_true h2⟩
  · intro ⟨h1, h2⟩
    exact ⟨h1, decide_eq_true h2⟩

theorem foldl_fixed {α β : Type} (f : β → α → β) (l : List α) (b : β)
    (h : ∀ a ∈ l, f b a = b) : l.foldl f b = b := by
  induction l with
  | nil => rfl
  | cons a l ih =>
      simp only [List.foldl_cons]
      rw [h a (List.mem_cons_self a l)]
      exact ih (fun x hx => h x (List.mem_cons_of_mem _ hx))

/-! ### Retry-budget invariant machinery -/

/-- The columns `TaskRepository.Update` never writes: a row's id and
max_retries are fixed for its lifetime. -/
def taskKey (t : Task) : String × Int := (t.id, t.maxRetries)

theorem map_taskKey_update (l : List Task) (t : Task) (now : Int) :
    (l.map (fun x => if x.id = t.id then mergeTaskRecord x t now else x)).map taskKey =
      l.map taskKey := by
  induction l with
  | nil => rfl
  | cons a l ih =>
      simp only [List.map_cons, ih]
      congr 1
      by_cases h : a.id = t.id
      · rw [if_pos h]
        rfl
      · rw [if_neg h]

theorem updateTask_taskKey (st : Store) (t : Task) (now : Int) :
    (updateTask st t now).tasks.map taskKey = st.tasks.map taskKey :=
  map_taskKey_update st.tasks t now

theorem map_id_of_taskKey {l1 l2 : List Task} (h : l1.map taskKey = l2.map taskKey) :
    l1.map Task.id = l2.map Task.id := by
  have h2 := congrArg (List.map Prod.fst) h
  rw [List.map_map, List.map_map] at h2
  exact h2

theorem eq_of_mem_id_eq {l : List Task} (hN : (l.map Task.id).Nodup) {x t : Task}
    (hx : x ∈ l) (ht : t ∈ l) (hid : x.id = t.id) : x = t := by
  induction l with
  | nil => cases hx
  | cons a l ih =>
      rw [List.map_cons, List.nodup_cons] at hN
      rcases List.mem_cons.mp hx with rfl | hx2
      · rcases List.mem_cons.mp ht with rfl | ht2
        · rfl
        · exfalso
          apply hN.1
          rw [hid]
          exact List.mem_map_of_mem Task.id ht2
      · rcases List.mem_cons.mp ht with rfl | ht2
        · exfalso
          apply hN.1
          rw [← hid]
          exact List.mem_map_of_mem Task.id hx2
        · exact ih hN.2 hx2 ht2

/-- The store invariant carried through every operation: distinct task ids
and retry counts within budget. -/
def StoreInv (st : Store) : Prop := TaskIdsNodup st ∧ RetryOK st

theorem taskIdsNodup_updateTask {st : Store} (h : TaskIdsNodup st) (t : Task) (now : Int) :
    TaskIdsNodup (updateTask st t now) := by
  unfold TaskIdsNodup at *
  rw [map_id_of_taskKey (updateTask_taskKey st t now)]
  exact h

/-- `t2.retryCount` stays within the budget of every row sharing its id. -/
def MaxOfIdOK (st : Store) (t2 : Task) : Prop :=
  ∀ x ∈ st.tasks, x.id = t2.id → t2.retryCount ≤ x.maxRetries

theorem retryOK_updateTask {st : Store} (h : RetryOK st) {t : Task} (hm : MaxOfIdOK st t)
    (now : Int) : RetryOK (updateTask st t now) := by
  intro y hy
  obtain ⟨x, hx, hxy⟩ := List.mem_map.mp hy
  by_cases hid : x.id = t.id
  · rw [if_pos hid] at hxy
    rw [← hxy]
    have e1 : (mergeTaskRecord x t now).retryCount = t.retryCount := rfl
    have e2 : (mergeTaskRecord x t now).maxRetries = x.maxRetries := rfl
    rw [e1, e2]
    exact hm x hx hid
  · rw [if_neg hid] at hxy
    rw [← hxy]
    exact h x hx

theorem storeInv_updateWorker {st : Store} (h : StoreInv st) (w : Worker) :
    StoreInv (updateWorker st w) :=
  ⟨h.1, fun t ht => h.2 t ht⟩

/-- A written record that keeps a fetched row's id, with a retry count
within that row's budget, respects every row of a nodup store. -/
theorem maxOfIdOK_of_fetched {st : Store} (hInv : StoreInv st) {t : Task}
    (hmem : t ∈ st.tasks) {t2 : Task} (hid : t2.id = t.id)
    (hrc : t2.retryCount ≤ t.maxRetries) : MaxOfIdOK st t2 := by
  intro x hx hxid
  have hx2 : x = t := eq_of_mem_id_eq hInv.1 hx hmem (hxid.trans hid)
  rw [hx2]
  exact hrc

theorem storeInv_updateTask_fetched {st : Store} (hInv : StoreInv st) {t : Task}
    (hmem : t ∈ st.tasks) {t2 : Task} (hid : t2.id = t.id)
    (hrc : t2.retryCount ≤ t.maxRetries) (now : Int) :
    StoreInv (updateTask st t2 now) :=
  ⟨taskIdsNodup_updateTask hInv.1 t2 now,
   retryOK_updateTask hInv.2 (maxOfIdOK_of_fetched hInv hmem hid hrc) now⟩

/-- Keys relative to a base store: written records within the budget of a
base row of the same id respect every current row. -/
theorem maxOfIdOK_via_base {base st : Store} (hInvB : StoreInv base)
    (hkey : st.tasks.map taskKey = base.tasks.map taskKey)
    {t : Task} (ht : t ∈ base.tasks) {t2 : Task} (hid : t2.id = t.id)
    (hrc : t2.retryCount ≤ t.maxRetries) : MaxOfIdOK st t2 := by
  intro x hx hxid
  have hxk : taskKey x ∈ base.tasks.map taskKey := by
    rw [← hkey]
    exact List.mem_map_of_mem taskKey hx
  obtain ⟨y, hy, hyk⟩ := List.mem_map.mp hxk
  have hyx1 : y.id = x.id := congrArg Prod.fst hyk
  have hyx2 : y.maxRetries = x.maxRetries := congrArg Prod.snd hyk
  have hyt : y = t := eq_of_mem_id_eq hInvB.1 hy ht (by rw [hyx1, hxid, hid])
  rw [← hyx2, hyt]
  exact hrc

theorem taskIdsNodup_of_key {base st : Store} (hN : TaskIdsNodup base)
    (hkey : st.tasks.map taskKey = base.tasks.map taskKey) : TaskIdsNodup st := by
  unfold TaskIdsNodup at *
  rw [map_id_of_taskKey hkey]
  exact hN

theorem storeInv_tasks_eq {st1 st2 : Store} (h : StoreInv st1) (he : st2.tasks = st1.tasks) :
    StoreInv st2 := by
  constructor
  · unfold TaskIdsNodup
    rw [he]
    exact h.1
  · intro t ht
    rw [he] at ht
    exact h.2 t ht

theorem builtTask_retryOK (i : String) (req : CreateTaskRequest) (now : Int) :
    (builtTask i req now).retryCount ≤ (builtTask i req now).maxRetries := by
  unfold builtTask newTask
  by_cases h2 : 0 < req.maxRetries
  · rw [if_pos h2]
    by_cases h1 : 0 < req.timeout
    · rw [if_pos h1]
      show (0 : Int) ≤ req.maxRetries
      omega
    · rw [if_neg h1]
      show (0 : Int) ≤ req.maxRetries
      omega
  · rw [if_neg h2]
    by_cases h1 : 0 < req.timeout
    · rw [if_pos h1]
      show (0 : Int) ≤ 3
      decide
    · rw [if_neg h1]
      show (0 : Int) ≤ 3
      decide

theorem storeInv_createTaskRepo {st : Store} {t : Task} {st2 : Store} (h : StoreInv st)
    (hrt : t.retryCount ≤ t.maxRetries) (he : createTaskRepo st t = some st2) :
    StoreInv st2 := by
  unfold createTaskRepo at he
  by_cases hc : st.tasks.any (fun x => x.id = t.id)
  · rw [if_pos hc] at he
    cases he
  · rw [if_neg hc] at he
    rw [Option.some_inj] at he
    rw [← he]
    constructor
    · show ((st.tasks ++ [t]).map Task.id).Nodup
      rw [List.map_append]
      apply List.Nodup.append h.1 (List.nodup_singleton t.id)
      intro a ha hb
      rw [List.mem_singleton] at hb
      subst hb
      obtain ⟨x, hx, hxe⟩ := List.mem_map.mp ha
      apply hc
      rw [List.any_eq_true]
      exact ⟨x, hx, decide_eq_true hxe⟩
    · intro x hx
      rcases List.mem_append.mp hx with h1 | h1
      · exact h.2 x h1
      · rw [List.mem_singleton.mp h1]
        exact hrt

theorem storeInv_createTaskHandler (st : Store) (i : String) (req : CreateTaskRequest)
    (now : Int) (h : StoreInv st) : StoreInv (createTaskHandler st i req now).2 := by
  unfold createTaskHandler
  cases he : createTaskRepo st (builtTask i req now) with
  | none => exact h
  | some st2 => exact storeInv_createTaskRepo h (builtTask_retryOK i req now) he

theorem createWorkerRepo_tasks {st : Store} {w : Worker} {st2 : Store}
    (he : createWorkerRepo st w = some st2) : st2.tasks = st.tasks := by
  unfold createWorkerRepo at he
  by_cases hc : st.workers.any (fun x => x.id = w.id)
  · rw [if_pos hc] at he
    cases he
  · rw [if_neg hc] at he
    rw [Option.some_inj] at he
    rw [← he]

theorem storeInv_registerWorker (st : Store) (i : String) (req : RegisterWorkerRequest)
    (now : Int) (h : StoreInv st) : StoreInv (registerWorkerHandler st i req now).2 := by
  unfold registerWorkerHandler
  cases he : createWorkerRepo st (registeredWorker i req now) with
  | none => exact h
  | some st2 => exact storeInv_tasks_eq h (createWorkerRepo_tasks he)

theorem storeInv_cancelTask (st : Store) (i : String) (now : Int) (h : StoreInv st) :
    StoreInv (cancelTask st i now).2 := by
  cases hg : getTaskById st i with
  | none =>
      have e : cancelTask st i now = (404, st) := by
        unfold cancelTask
        rw [hg]
      rw [e]
      exact h
  | some t =>
      have e : cancelTask st i now =
          (if t.status ≠ "pending" ∧ t.status ≠ "scheduled" then (400, st)
           else (200, updateTask st { t with status := "cancelled", updatedAt := now } now)) := by
        unfold cancelTask
        rw [hg]
      by_cases hc : t.status ≠ "pending" ∧ t.status ≠ "scheduled"
      · rw [e, if_pos hc]
        exact h
      · rw [e, if_neg hc]
        refine storeInv_updateTask_fetched h (getTaskById_mem hg).1 ?_ ?_ now
        · rfl
        · exact h.2 t (getTaskById_mem hg).1

theorem applyTaskReport_id (t : Task) (req : UpdateWorkerStatusRequest) (now : Int) :
    (applyTaskReport t req now).id = t.id := by
  unfold applyTaskReport
  repeat' split
  all_goals rfl

theorem applyTaskReport_retryCount (t : Task) (req : UpdateWorkerStatusRequest) (now : Int) :
    (applyTaskReport t req now).retryCount = t.retryCount := by
  unfold applyTaskReport
  repeat' split
  all_goals rfl

theorem storeInv_updateWorkerStatus (st : Store) (i : String)
    (req : UpdateWorkerStatusRequest) (now : Int) (h : StoreInv st) :
    StoreInv (updateWorkerStatus st i req now).2 := by
  cases hg : getWorkerById st i with
  | none =>
      have e : updateWorkerStatus st i req now = (404, st) := by
        unfold updateWorkerStatus
        rw [hg]
      rw [e]
      exact h
  | some w =>
      have e : updateWorkerStatus st i req now =
          (if req.taskStatus = "" then (200, updateWorker st (reportWorkerRecord w req now))
           else
             match req.currentTaskId with
             | none => (200, updateWorker st (reportWorkerRecord w req now))
             | some tid =>
                 match updateTaskStatusFn (updateWorker st (reportWorkerRecord w req now))
                     tid req now with
                 | none => (500, updateWorker st (reportWorkerRecord w req now))
                 | some st2 =>
                     if req.taskStatus = "completed" ∨ req.taskStatus = "failed" then
                       (200, updateWorker st2 (finishWorkerRecord (reportWorkerRecord w req now)))
                     else (200, st2)) := by
        unfold updateWorkerStatus
        rw [hg]
      rw [e]
      by_cases hts : req.taskStatus = ""
      · rw [if_pos hts]
        exact storeInv_updateWorker h _
      · rw [if_neg hts]
        cases hct : req.currentTaskId with
        | none => exact storeInv_updateWorker h _
        | some tid =>
            show StoreInv
              (match updateTaskStatusFn (updateWorker st (reportWorkerRecord w req now))
                  tid req now with
               | none => (500, updateWorker st (reportWorkerRecord w req now))
               | some st2 =>
                   if req.taskStatus = "completed" ∨ req.taskStatus = "failed" then
                     (200, updateWorker st2 (finishWorkerRecord (reportWorkerRecord w req now)))
                   else (200, st2)).2
            cases hfn : updateTaskStatusFn (updateWorker st (reportWorkerRecord w req now))
                tid req now with
            | none => exact storeInv_updateWorker h _
            | some st2 =>
                have hInv1 : StoreInv (updateWorker st (reportWorkerRecord w req now)) :=
                  storeInv_updateWorker h _
                have hInv2 : StoreInv st2 := by
                  unfold updateTaskStatusFn at hfn
                  cases hgt : getTaskById (updateWorker st (reportWorkerRecord w req now)) tid with
                  | none =>
                      rw [hgt] at hfn
                      simp at hfn
                  | some t =>
                      rw [hgt] at hfn
                      have he : updateTask (updateWorker st (reportWorkerRecord w req now))
                          (applyTaskReport t req now) now = st2 := by
                        exact Option.some_inj.mp hfn
                      rw [← he]
                      apply storeInv_updateTask_fetched hInv1 (getTaskById_mem hgt).1
                        (applyTaskReport_id t req now)
                      rw [applyTaskReport_retryCount]
                      exact hInv1.2 t (getTaskById_mem hgt).1
                show StoreInv
                  ((if req.taskStatus = "completed" ∨ req.taskStatus = "failed" then
                      (200, updateWorker st2 (finishWorkerRecord (reportWorkerRecord w req now)))
                    else (200, st2)).2)
                by_cases hterm : req.taskStatus = "completed" ∨ req.taskStatus = "failed"
                · rw [if_pos hterm]
                  exact storeInv_updateWorker hInv2 _
                · rw [if_neg hterm]
                  exact hInv2

theorem mem_getPendingTasks {st : Store} {limit : Nat} {t : Task}
    (ht : t ∈ getPendingTasks st limit) : t.status = "pending" ∧ t ∈ st.tasks := by
  unfold getPendingTasks at ht
  have h1 := List.mem_of_mem_take ht
  have h2 := (List.mem_insertionSort pendingOrder).mp h1
  have h3 := List.mem_filter.mp h2
  exact ⟨of_decide_eq_true h3.2, h3.1⟩

theorem mem_listTasksByStatus {st : Store} {status : TaskStatus} {limit offset : Nat}
    {t : Task} (ht : t ∈ listTasksByStatus st status limit offset) : t ∈ st.tasks := by
  unfold listTasksByStatus at ht
  have h1 := List.mem_of_mem_take ht
  have h2 := List.mem_of_mem_drop h1
  have h3 := (List.mem_insertionSort pendingOrder).mp h2
  exact (List.mem_filter.mp h3).1

theorem assignTask_fst_key (now : Int) (st : Store) (w : Worker) (t : Task) :
    (assignTask now st w t).1.tasks.map taskKey = st.tasks.map taskKey := by
  show (updateTask st { t with status := "scheduled", workerId := some w.id, updatedAt := now }
    now).tasks.map taskKey = st.tasks.map taskKey
  exact updateTask_taskKey st _ now

theorem assignTask_fst_inv {base st : Store} (hInvB : StoreInv base)
    (hkey : st.tasks.map taskKey = base.tasks.map taskKey) (hInv : StoreInv st)
    {t : Task} (ht : t ∈ base.tasks) (now : Int) (w : Worker) :
    StoreInv (assignTask now st w t).1 := by
  constructor
  · show TaskIdsNodup (updateTask st
      { t with status := "scheduled", workerId := some w.id, updatedAt := now } now)
    exact taskIdsNodup_updateTask hInv.1 _ now
  · show RetryOK (updateTask st
      { t with status := "scheduled", workerId := some w.id, updatedAt := now } now)
    refine retryOK_updateTask hInv.2 ?_ now
    refine maxOfIdOK_via_base hInvB hkey ht ?_ ?_
    · rfl
    · exact hInvB.2 t ht

theorem assignFold_inv (now : Int) {base : Store} (hInvB : StoreInv base) :
    ∀ (pend : List Task) (acc : Store × Resources × List Worker),
      acc.1.tasks.map taskKey = base.tasks.map taskKey → StoreInv acc.1 →
      (∀ t ∈ pend, t ∈ base.tasks) →
      StoreInv (pend.foldl (processOneTask now) acc).1 := by
  intro pend
  induction pend with
  | nil => intro acc _ hInv _; exact hInv
  | cons t pend ih =>
      intro acc hkey hInv hmem
      simp only [List.foldl_cons]
      have hmt : t ∈ base.tasks := hmem t (List.mem_cons_self t pend)
      have hstep : StoreInv (processOneTask now acc t).1 ∧
          (processOneTask now acc t).1.tasks.map taskKey = base.tasks.map taskKey := by
        unfold processOneTask
        cases hef : extractFit acc.2.1 t acc.2.2 with
        | none =>
            cases hav : acc.2.2 with
            | nil => exact ⟨hInv, hkey⟩
            | cons w rest =>
                exact ⟨assignTask_fst_inv hInvB hkey hInv hmt now w,
                       (assignTask_fst_key now acc.1 w t).trans hkey⟩
        | some pr =>
            obtain ⟨w, rest⟩ := pr
            exact ⟨assignTask_fst_inv hInvB hkey hInv hmt now w,
                   (assignTask_fst_key now acc.1 w t).trans hkey⟩
      exact ih _ hstep.2 hstep.1 (fun x hx => hmem x (List.mem_cons_of_mem t hx))

theorem storeInv_processPendingTasks (cfg : Config) (now : Int) (s : SchedState)
    (h : StoreInv s.store) : StoreInv (processPendingTasks cfg now s).store := by
  unfold processPendingTasks
  by_cases hp : (getPendingTasks s.store cfg.maxTasks).isEmpty
  · rw [if_pos hp]
    exact h
  · rw [if_neg hp]
    by_cases ha : (listAvailable s.store now).isEmpty
    · rw [if_pos ha]
      exact h
    · rw [if_neg ha]
      exact assignFold_inv now h (getPendingTasks s.store cfg.maxTasks)
        (s.store, s.resources, listAvailable s.store now) rfl h
        (fun t ht => (mem_getPendingTasks ht).2)

theorem sweepFreeWorker_tasks (st : Store) (t : Task) :
    (sweepFreeWorker st t).tasks = st.tasks := by
  unfold sweepFreeWorker
  rcases t.workerId with _ | wid
  · rfl
  · show (match getWorkerById st wid with
          | none => st
          | some w =>
              updateWorker st { w with status := "available", currentTaskId := none }).tasks =
        st.tasks
    rcases getWorkerById st wid with _ | w
    · rfl
    · rfl

theorem sweepOne_inv {base st : Store} (hInvB : StoreInv base)
    (hkey : st.tasks.map taskKey = base.tasks.map taskKey) (hInv : StoreInv st)
    {t : Task} (ht : t ∈ base.tasks) (cfg : Config) (now : Int) :
    StoreInv (sweepOneTask cfg now st t) ∧
      (sweepOneTask cfg now st t).tasks.map taskKey = base.tasks.map taskKey := by
  have hInv1 : StoreInv (updateTask st (failedTimeoutTask t now) now) := by
    constructor
    · exact taskIdsNodup_updateTask hInv.1 _ now
    · refine retryOK_updateTask hInv.2 ?_ now
      refine maxOfIdOK_via_base hInvB hkey ht ?_ ?_
      · rfl
      · exact hInvB.2 t ht
  have hkey1 : (updateTask st (failedTimeoutTask t now) now).tasks.map taskKey =
      base.tasks.map taskKey :=
    (updateTask_taskKey st _ now).trans hkey
  cases hs : t.startedAt with
  | none =>
      have es : sweepOneTask cfg now st t = st := by
        unfold sweepOneTask
        rw [hs]
      rw [es]
      exact ⟨hInv, hkey⟩
  | some s0 =>
      have es : sweepOneTask cfg now st t =
          (if cfg.taskTimeout < now - s0 then
            sweepFreeWorker (updateTask st (failedTimeoutTask t now) now) t
          else st) := by
        unfold sweepOneTask
        rw [hs]
      rw [es]
      by_cases hto : cfg.taskTimeout < now - s0
      · rw [if_pos hto]
        constructor
        · exact storeInv_tasks_eq hInv1 (sweepFreeWorker_tasks _ t)
        · rw [sweepFreeWorker_tasks]
          exact hkey1
      · rw [if_neg hto]
        exact ⟨hInv, hkey⟩

theorem sweepFold_inv (cfg : Config) (now : Int) {base : Store} (hInvB : StoreInv base) :
    ∀ (batch : List Task) (st : Store),
      st.tasks.map taskKey = base.tasks.map taskKey → StoreInv st →
      (∀ t ∈ batch, t ∈ base.tasks) →
      StoreInv (batch.foldl (sweepOneTask cfg now) st) := by
  intro batch
  induction batch with
  | nil => intro st _ hInv _; exact hInv
  | cons t batch ih =>
      intro st hkey hInv hmem
      simp only [List.foldl_cons]
      have hstep := sweepOne_inv hInvB hkey hInv (hmem t (List.mem_cons_self t batch)) cfg now
      exact ih _ hstep.2 hstep.1 (fun x hx => hmem x (List.mem_cons_of_mem t hx))

theorem storeInv_checkTaskTimeouts (cfg : Config) (now : Int) (st : Store)
    (h : StoreInv st) : StoreInv (checkTaskTimeouts cfg now st) := by
  unfold checkTaskTimeouts
  exact sweepFold_inv cfg now h _ st rfl h (fun t ht => mem_listTasksByStatus ht)

theorem retryOrFail_id (t : Task) (now : Int) : (retryOrFail t now).id = t.id := by
  unfold retryOrFail
  split
  · rfl
  · rfl

theorem retryOrFail_retry_le {st : Store} (hInv : StoreInv st) {t : Task} (hm : t ∈ st.tasks)
    (now : Int) : (retryOrFail t now).retryCount ≤ t.maxRetries := by
  unfold retryOrFail
  by_cases hlt : t.retryCount < t.maxRetries
  · rw [if_pos hlt]
    show t.retryCount + 1 ≤ t.maxRetries
    omega
  · rw [if_neg hlt]
    exact hInv.2 t hm

theorem storeInv_monitorOne (cfg : Config) (now : Int) {st : Store} (hInv : StoreInv st)
    (w : Worker) : StoreInv (monitorOneWorker cfg now st w) := by
  by_cases hstale : w.lastHeartbeat < now - 2 * cfg.heartbeatInterval
  · cases hw : w.currentTaskId with
    | none =>
        rw [monitorOne_stale_none st hstale hw]
        exact storeInv_updateWorker hInv _
    | some tid =>
        cases hg : getTaskById st tid with
        | none =>
            rw [monitorOne_stale_lost st hstale hw hg]
            exact hInv
        | some t =>
            rw [monitorOne_stale_task st hstale hw hg]
            apply storeInv_updateWorker
            exact storeInv_updateTask_fetched hInv (getTaskById_mem hg).1
              (retryOrFail_id t now) (retryOrFail_retry_le hInv (getTaskById_mem hg).1 now) now
  · rw [monitorOne_not_stale st hstale]
    exact hInv

theorem storeInv_handleFailedWorkers (cfg : Config) (now : Int) (st : Store)
    (h : StoreInv st) : StoreInv (handleFailedWorkers cfg now st) := by
  unfold handleFailedWorkers
  have hfold : ∀ (l : List Worker) (st0 : Store), StoreInv st0 →
      StoreInv (l.foldl (monitorOneWorker cfg now) st0) := by
    intro l
    induction l with
    | nil => intro st0 h0; exact h0
    | cons a l ih =>
        intro st0 h0
        simp only [List.foldl_cons]
        exact ih _ (storeInv_monitorOne cfg now h0 a)
  exact hfold _ st h

/-- Every reachable state satisfies the store invariant: distinct task ids
and every retry count within its budget. -/
theorem reachable_storeInv {s : SchedState} (h : Reachable s) : StoreInv s.store := by
  induction h with
  | init =>
      constructor
      · show (([] : List Task).map Task.id).Nodup
        exact List.nodup_nil
      · intro t ht
        cases ht
  | createTask i req now _ ih => exact storeInv_createTaskHandler _ i req now ih
  | registerWorker i req now _ ih => exact storeInv_registerWorker _ i req now ih
  | heartbeat i now _ ih => exact storeInv_tasks_eq ih rfl
  | cancel i now _ ih => exact storeInv_cancelTask _ i now ih
  | report i req now _ ih => exact storeInv_updateWorkerStatus _ i req now ih
  | assign cfg now _ ih => exact storeInv_processPendingTasks cfg now _ ih
  | sweep cfg now _ ih => exact storeInv_checkTaskTimeouts cfg now _ ih
  | monitor cfg now _ ih => exact storeInv_handleFailedWorkers cfg now _ ih

/-- C6: retry budget. First, for every reachable state, every task satisfies
`retry_count ≤ max_retries` (spec P3). Second, whenever the liveness monitor
handles a stale worker's assigned task, it requeues the task to pending with
the retry count incremented and the worker id cleared while
`retry_count < max_retries`, and otherwise terminates it as failed with the
budget-exhaustion error message, without incrementing the count. -/
theorem retry_budget_and_orphan_policy :
    (∀ s : SchedState, Reachable s → ∀ t ∈ s.store.tasks, t.retryCount ≤ t.maxRetries) ∧
    (∀ (cfg : Config) (now : Int) (st : Store) (w : Worker) (tid : String) (t : Task),
      w.lastHeartbeat < now - 2 * cfg.heartbeatInterval →
      w.currentTaskId = some tid →
      getTaskById st tid = some t →
      ((t.retryCount < t.maxRetries →
          getTaskById (monitorOneWorker cfg now st w) tid =
            some { t with
                   status := "pending", workerId := none,
                   retryCount := t.retryCount + 1, updatedAt := now }) ∧
       (¬ t.retryCount < t.maxRetries →
          getTaskById (monitorOneWorker cfg now st w) tid =
            some { t with
                   status := "failed",
                   error := "Task failed after maximum retry attempts",
                   updatedAt := now }))) := by
  constructor
  · intro s hs t ht
    exact (reachable_storeInv hs).2 t ht
  · intro cfg now st w tid t hstale htid hg
    have hid : (retryOrFail t now).id = tid := by
      rw [retryOrFail_id]
      exact (getTaskById_mem hg).2
    have hmain : getTaskById (monitorOneWorker cfg now st w) tid =
        some (mergeTaskRecord t (retryOrFail t now) now) := by
      rw [monitorOne_stale_task st hstale htid hg]
      show getTaskById (updateTask st (retryOrFail t now) now) tid = _
      exact getTaskById_updateTask hg (retryOrFail t now) hid now
    constructor
    · intro hlt
      rw [hmain]
      have e : retryOrFail t now =
          { t with
            status := "pending", workerId := none,
            retryCount := t.retryCount + 1, updatedAt := now } := by
        unfold retryOrFail
        rw [if_pos hlt]
      rw [e]
      rfl
    · intro hge
      rw [hmain]
      have e : retryOrFail t now =
          { t with
            status := "failed",
            error := "Task failed after maximum retry attempts", updatedAt := now } := by
        unfold retryOrFail
        rw [if_neg hge]
      rw [e]
      rfl

/-- C6 witness: in the reachable one-task state the budget invariant is
0 ≤ 3, and on a concrete stale worker holding running task t1 with
retry count 0 of 3, a monitor step requeues t1 with retry count 1. -/
theorem retry_budget_witness :
    ((0 : Int) ≤ 3) ∧
    getTaskById (monitorOneWorker c6Cfg 1000 c6Store c6Worker) "t1" =
      some { c6Task with
             status := "pending", workerId := none,
             retryCount := 1, updatedAt := 1000 } := by
  have h := retry_budget_and_orphan_policy
  constructor
  · have hr : Reachable c6Reach :=
      Reachable.createTask "t1" { name := "t" } 0 Reachable.init
    exact h.1 c6Reach hr (builtTask "t1" { name := "t" } 0) (by decide)
  · exact (h.2 c6Cfg 1000 c6Store c6Worker "t1" c6Task (by decide) (by decide)
      (by decide)).1 (by decide)

/-- C9: one liveness-monitor pass is idempotent: a second pass at the same
instant, with no intervening worker activity, changes nothing. Every stale
worker the first pass could see was marked offline, and `ListAvailable`
never returns offline workers, so the second pass finds no stale work. -/
theorem liveness_monitor_idempotent (cfg : Config) (now : Int) (st : Store) :
    handleFailedWorkers cfg now (handleFailedWorkers cfg now st) =
      handleFailedWorkers cfg now st := by
  have hform : handleFailedWorkers cfg now st =
      (listAvailable st now).foldl (monitorOneWorker cfg now) st := rfl
  rw [handleFailedWorkers]
  apply foldl_fixed
  intro w hw
  have hprops := mem_listAvailable.mp hw
  by_cases hstale : w.lastHeartbeat < now - 2 * cfg.heartbeatInterval
  · exfalso
    have hys : w.status ≠ "offline" := by
      rw [hprops.2.1]
      decide
    have hmem0 : w ∈ st.workers := by
      apply nonoffline_mem_fold cfg now w hys (listAvailable st now) st
      rw [← hform]
      exact hprops.1
    have hw0 : w ∈ listAvailable st now :=
      mem_listAvailable.mpr ⟨hmem0, hprops.2.1, hprops.2.2.1, hprops.2.2.2⟩
    have hoff : OfflineAt w.id (handleFailedWorkers cfg now st) := by
      rw [hform]
      exact pass_sets_offline cfg now w hstale (listAvailable st now) st
        (fun x hx => (mem_listAvailable.mp hx).2.2.1) hw0
    have hcontra := hoff w hprops.1 rfl
    rw [hprops.2.1] at hcontra
    exact absurd hcontra (by decide)
  · exact monitorOne_not_stale _ hstale

end AIJob
